import Mathlib

/-!
Shallow embedding of the economy engine and minigame trigger logic of the
mining incremental game (source file src/src/components/Minigame.tsx, the
App variant with the skill tree).  JS numbers are modelled as rationals,
Math.floor as Int.floor, and Math.pow (1.5, n) for a natural owned-count n
as (3/2)^n.  The while loop in gainXp is modelled with an explicit fuel
parameter; for reachable states the threshold is a positive integer, so the
loop terminates and any sufficiently large fuel gives the same result.
-/

/-- Catalog entry from interface Resource; presentation-only fields
(name, color, icon, description) are omitted. -/
structure Resource where
  id : String
  value : ℚ
  unlockDepth : ℚ
deriving DecidableEq

/-- The three equipment type tags from interface Equipment. -/
inductive EquipType where
  | pickaxe
  | drill
  | automation
deriving DecidableEq, BEq

/-- Catalog-plus-ownership entry from interface Equipment; presentation
fields omitted. -/
structure Equipment where
  id : String
  type : EquipType
  power : ℚ
  cost : ℚ
  owned : ℕ
deriving DecidableEq

/-- Skill-tree node from interface Skill; getEffect is a display string and
is omitted.  A missing dependencies field is modelled as the empty list. -/
structure Skill where
  id : String
  maxLevel : ℕ
  getCost : ℕ → ℚ
  dependencies : List String

/-- The multiplier bundle GameState.upgrades. -/
structure Upgrades where
  clickMultiplier : ℚ
  autoMultiplier : ℚ
  efficiencyBonus : ℚ
  sellPriceMultiplier : ℚ
  xpGainMultiplier : ℚ
  rareResourceChance : ℚ
deriving DecidableEq

/-- interface GameState.  The skills record is modelled as an association
list from skill id to level; moneyUpgrades (whose stored effect closures no
claim touches) are omitted. -/
structure GameState where
  level : ℕ
  xp : ℚ
  xpToNextLevel : ℚ
  skillPoints : ℚ
  money : ℚ
  coal : ℚ
  iron : ℚ
  gold : ℚ
  diamond : ℚ
  depth : ℚ
  totalMined : ℚ
  clickPower : ℚ
  autoMineRate : ℚ
  equipment : List Equipment
  upgrades : Upgrades
  skills : List (String × ℕ)
deriving DecidableEq

def coalRes : Resource := ⟨"coal", 1, 0⟩

def ironRes : Resource := ⟨"iron", 5, 10⟩

def goldRes : Resource := ⟨"gold", 25, 25⟩

def diamondRes : Resource := ⟨"diamond", 100, 50⟩

/-- const RESOURCES. -/
def RESOURCES : List Resource := [coalRes, ironRes, goldRes, diamondRes]

/-- const INITIAL_EQUIPMENT. -/
def INITIAL_EQUIPMENT : List Equipment :=
  [ ⟨"basic_pickaxe", .pickaxe, 1, 50, 0⟩,
    ⟨"steel_pickaxe", .pickaxe, 5, 200, 0⟩,
    ⟨"auto_miner", .automation, 1, 300, 0⟩,
    ⟨"auto_drill", .automation, 5, 1500, 0⟩,
    ⟨"mega_miner", .automation, 25, 7500, 0⟩,
    ⟨"drill", .drill, 10, 1000, 0⟩,
    ⟨"mega_drill", .drill, 50, 5000, 0⟩ ]

def clickPowerBoostSkill : Skill :=
  ⟨"click_power_boost", 10, fun level => (level : ℚ) + 1, []⟩

def autoMineSpeedSkill : Skill :=
  ⟨"auto_mine_speed", 10, fun level => (level : ℚ) + 1, []⟩

def xpGainSkill : Skill :=
  ⟨"xp_gain", 5, fun level => (level : ℚ) * 2 + 1,
    ["click_power_boost", "auto_mine_speed"]⟩

def rareResourceChanceSkill : Skill :=
  ⟨"rare_resource_chance", 5, fun level => (level : ℚ) * 2 + 2,
    ["auto_mine_speed"]⟩

def minigameBonusSkill : Skill :=
  ⟨"minigame_bonus", 3, fun level => (level : ℚ) * 3 + 2, ["xp_gain"]⟩

/-- const SKILL_TREE. -/
def SKILL_TREE : List Skill :=
  [clickPowerBoostSkill, autoMineSpeedSkill, xpGainSkill,
   rareResourceChanceSkill, minigameBonusSkill]

/-- gameState.skills[skillId] with fallback 0 (the source writes
gameState.skills[skillId] with a default of 0 for an absent key). -/
def skillLevel (skills : List (String × ℕ)) (id : String) : ℕ :=
  ((skills.find? (fun p => p.1 == id)).map Prod.snd).getD 0

/-- The object-spread update that sets key skillId of the skills record. -/
def setSkill : List (String × ℕ) → String → ℕ → List (String × ℕ)
  | [], id, v => [(id, v)]
  | (k, w) :: rest, id, v =>
    if k == id then (id, v) :: rest else (k, w) :: setSkill rest id v

/-- Accumulator for the level-up while loop inside gainXp. -/
structure LevelAcc where
  xp : ℚ
  level : ℕ
  xpToNextLevel : ℚ
  skillPoints : ℚ
deriving DecidableEq

/-- The while loop of gainXp: while newXp is at least newXpToNextLevel,
subtract the threshold, increment the level and the skill points, and set
the threshold to Math.floor of 1.5 times itself.  fuel bounds the number of
iterations; for reachable states (threshold a positive integer) any fuel
beyond the need leaves the result unchanged. -/
def levelLoop : ℕ → LevelAcc → LevelAcc
  | 0, a => a
  | fuel + 1, a =>
    if a.xpToNextLevel ≤ a.xp then
      levelLoop fuel
        ⟨a.xp - a.xpToNextLevel, a.level + 1,
         ((⌊a.xpToNextLevel * (3 / 2)⌋ : ℤ) : ℚ), a.skillPoints + 1⟩
    else a

/-- gainXp: scale the grant by the xp-gain multiplier, add it to xp, then
run the level-up loop. -/
def gainXp (fuel : ℕ) (s : GameState) (amount : ℚ) : GameState :=
  let xpGained := amount * s.upgrades.xpGainMultiplier
  let a := levelLoop fuel ⟨s.xp + xpGained, s.level, s.xpToNextLevel, s.skillPoints⟩
  { s with xp := a.xp, level := a.level,
           xpToNextLevel := a.xpToNextLevel, skillPoints := a.skillPoints }

/-- getCurrentResource: the last catalog entry whose unlockDepth is at most
the depth, with RESOURCES[0] as the fallback for an empty filter. -/
def getCurrentResource (depth : ℚ) : Resource :=
  let availableResources := RESOURCES.filter (fun r => depth ≥ r.unlockDepth)
  availableResources.getLast?.getD coalRes

/-- Dynamic read gameState[resourceId] for the four resource fields. -/
def getResource (s : GameState) (id : String) : ℚ :=
  if id == "coal" then s.coal
  else if id == "iron" then s.iron
  else if id == "gold" then s.gold
  else if id == "diamond" then s.diamond
  else 0

/-- Dynamic update of field resourceId by a summand, modelling the computed
property name in the setGameState spreads; ids come from RESOURCES. -/
def addResource (s : GameState) (id : String) (amt : ℚ) : GameState :=
  if id == "coal" then { s with coal := s.coal + amt }
  else if id == "iron" then { s with iron := s.iron + amt }
  else if id == "gold" then { s with gold := s.gold + amt }
  else if id == "diamond" then { s with diamond := s.diamond + amt }
  else s

/-- mineResource.  rand stands for the Math.random() draw (in [0,1)); the
rare find doubles power when rand is below rareResourceChance / 100.  The
gainXp updater is applied before the mining updater, matching the queued
functional setState order in the source. -/
def mineResource (fuel : ℕ) (rand : ℚ) (s : GameState) : GameState :=
  let resource := getCurrentResource s.depth
  let power0 := s.clickPower * s.upgrades.clickMultiplier
  let power := if rand < s.upgrades.rareResourceChance / 100 then power0 * 2 else power0
  let s1 := gainXp fuel s power
  let s2 := addResource s1 resource.id power
  { s2 with totalMined := s2.totalMined + power,
            depth := s2.depth + power * (1 / 10) }

/-- sellResource: no-op when the id is not in the catalog or the held
quantity is below amount; otherwise credit amount * value * sell-price
multiplier, debit the quantity, and grant a tenth of the money as xp. -/
def sellResource (fuel : ℕ) (s : GameState) (resourceId : String) (amount : ℚ) :
    GameState :=
  match RESOURCES.find? (fun r => r.id == resourceId) with
  | none => s
  | some resource =>
    if getResource s resourceId < amount then s
    else
      let moneyGained := amount * resource.value * s.upgrades.sellPriceMultiplier
      let s1 := gainXp fuel s (moneyGained / 10)
      let s2 := addResource s1 resourceId (-amount)
      { s2 with money := s2.money + moneyGained }

/-- buyEquipment: cost is base cost times 1.5 to the owned count; on
success the owned count increments and clickPower / autoMineRate are fully
recomputed from the updated ownership list. -/
def buyEquipment (s : GameState) (equipmentId : String) : GameState :=
  match s.equipment.find? (fun e => e.id == equipmentId) with
  | none => s
  | some equipment =>
    let cost := equipment.cost * (3 / 2 : ℚ) ^ equipment.owned
    if s.money < cost then s
    else
      let updatedEquipment := s.equipment.map (fun e =>
        if e.id == equipmentId then { e with owned := e.owned + 1 } else e)
      let newClickPower := 1 +
        ((updatedEquipment.filter (fun e =>
            e.type == EquipType.pickaxe || e.type == EquipType.drill)).map
          (fun e => e.power * (e.owned : ℚ))).sum
      let newAutoMineRate :=
        ((updatedEquipment.filter (fun e => e.type == EquipType.automation)).map
          (fun e => e.power * (e.owned : ℚ))).sum
      { s with money := s.money - cost, equipment := updatedEquipment,
               clickPower := newClickPower, autoMineRate := newAutoMineRate }

/-- spendSkillPoint.  Note the guards: the skill must exist, skill points
must be positive, the current level must be below maxLevel, and skill
points must cover getCost at the current level.  The source performs no
dependency check here. -/
def spendSkillPoint (s : GameState) (skillId : String) : GameState :=
  match SKILL_TREE.find? (fun sk => sk.id == skillId) with
  | none => s
  | some skill =>
    if s.skillPoints ≤ 0 then s
    else
      let currentLevel := skillLevel s.skills skillId
      if skill.maxLevel ≤ currentLevel then s
      else
        let cost := skill.getCost currentLevel
        if s.skillPoints < cost then s
        else
          let newSkills := setSkill s.skills skillId (currentLevel + 1)
          let newLevel : ℚ := (skillLevel newSkills skillId : ℚ)
          let u := s.upgrades
          let newUpgrades :=
            if skillId == "click_power_boost" then
              { u with clickMultiplier := 1 + newLevel * (1 / 20) }
            else if skillId == "auto_mine_speed" then
              { u with autoMultiplier := 1 + newLevel * (1 / 20) }
            else if skillId == "xp_gain" then
              { u with xpGainMultiplier := 1 + newLevel * (1 / 10) }
            else if skillId == "rare_resource_chance" then
              { u with rareResourceChance := newLevel }
            else u
          { s with skillPoints := s.skillPoints - cost, skills := newSkills,
                   upgrades := newUpgrades }

/-- The UI-side prerequisite check computed per skill card in the App
render: every dependency must have level greater than 0. -/
def dependenciesMet (s : GameState) (skill : Skill) : Bool :=
  skill.dependencies.all (fun dep => skillLevel s.skills dep > 0)

/-- Minigame terminal results. -/
inductive MinigameResult where
  | win
  | lose
deriving DecidableEq

/-- handleMinigameClose: a loss zeroes money and nothing else; a win grants
a fixed 50 xp. -/
def handleMinigameClose (fuel : ℕ) (result : MinigameResult) (s : GameState) :
    GameState :=
  match result with
  | .lose => { s with money := 0 }
  | .win => gainXp fuel s 50

/-- The depth-watching useEffect in App: when Math.floor(depth) exceeds
lastDepthForMinigame, record the new floor and open the minigame exactly
when that floor is divisible by 10 and depth is positive.  Returns the
open flag and the updated lastDepthForMinigame. -/
def checkMinigameTrigger (depth : ℚ) (lastDepthForMinigame : ℤ) : Bool × ℤ :=
  if lastDepthForMinigame < ⌊depth⌋ then
    (decide (⌊depth⌋ % 10 = 0 ∧ 0 < depth), ⌊depth⌋)
  else (false, lastDepthForMinigame)

/-- The Minigame component resets timeLeft to 10 on every open
(useState(10) and setTimeLeft(10)); neither the depth prop nor any skill
level reaches this value, so the countdown duration is the constant 10. -/
def minigameInitialTime : ℕ := 10

/-- The useState initial GameState in App. -/
def initialState : GameState :=
  { level := 1, xp := 0, xpToNextLevel := 100, skillPoints := 0, money := 0,
    coal := 0, iron := 0, gold := 0, diamond := 0, depth := 0, totalMined := 0,
    clickPower := 1, autoMineRate := 0, equipment := INITIAL_EQUIPMENT,
    upgrades := ⟨1, 1, 1, 1, 1, 0⟩, skills := [] }

/-! ## Helper lemmas -/

/-- The level-up loop is the identity when xp is already below the
threshold, whatever the fuel. -/
theorem levelLoop_of_lt (fuel : ℕ) (a : LevelAcc) (h : a.xp < a.xpToNextLevel) :
    levelLoop fuel a = a := by
  cases fuel with
  | zero => rfl
  | succ f =>
    simp only [levelLoop]
    rw [if_neg (not_le.mpr h)]

/-- The level-up loop never decreases the level. -/
theorem levelLoop_level_le (fuel : ℕ) (a : LevelAcc) :
    a.level ≤ (levelLoop fuel a).level := by
  induction fuel generalizing a with
  | zero => exact le_rfl
  | succ f ih =>
    simp only [levelLoop]
    split
    · have h := ih ⟨a.xp - a.xpToNextLevel, a.level + 1,
        ((⌊a.xpToNextLevel * (3 / 2)⌋ : ℤ) : ℚ), a.skillPoints + 1⟩
      exact le_trans (Nat.le_succ _) h
    · exact le_rfl

/-- Reading back the key just written by the skills-record update. -/
theorem skillLevel_setSkill (l : List (String × ℕ)) (id : String) (v : ℕ) :
    skillLevel (setSkill l id v) id = v := by
  induction l with
  | nil => simp [setSkill, skillLevel]
  | cons p rest ih =>
    obtain ⟨k, w⟩ := p
    by_cases h : (k == id) = true
    · simp [setSkill, h, skillLevel]
    · simp only [setSkill, h]
      rw [if_neg (by simp [h])]
      simpa [skillLevel, List.find?, h] using ih

/-! ## C6: minigame-loss reset -/

/-- C6: handleMinigameClose on a loss sets money to zero and leaves every
other field of the state unchanged: level, xp, threshold, skill points,
the four resource quantities, depth, totalMined, the derived clickPower
and autoMineRate, equipment ownership, the multiplier bundle, and the
skill levels. -/
theorem handleMinigameClose_lose_frame (fuel : ℕ) (s : GameState) :
    (handleMinigameClose fuel .lose s).money = 0 ∧
    (handleMinigameClose fuel .lose s).level = s.level ∧
    (handleMinigameClose fuel .lose s).xp = s.xp ∧
    (handleMinigameClose fuel .lose s).xpToNextLevel = s.xpToNextLevel ∧
    (handleMinigameClose fuel .lose s).skillPoints = s.skillPoints ∧
    (handleMinigameClose fuel .lose s).coal = s.coal ∧
    (handleMinigameClose fuel .lose s).iron = s.iron ∧
    (handleMinigameClose fuel .lose s).gold = s.gold ∧
    (handleMinigameClose fuel .lose s).diamond = s.diamond ∧
    (handleMinigameClose fuel .lose s).depth = s.depth ∧
    (handleMinigameClose fuel .lose s).totalMined = s.totalMined ∧
    (handleMinigameClose fuel .lose s).clickPower = s.clickPower ∧
    (handleMinigameClose fuel .lose s).autoMineRate = s.autoMineRate ∧
    (handleMinigameClose fuel .lose s).equipment = s.equipment ∧
    (handleMinigameClose fuel .lose s).upgrades = s.upgrades ∧
    (handleMinigameClose fuel .lose s).skills = s.skills :=
  ⟨rfl, rfl, rfl, rfl, rfl, rfl, rfl, rfl, rfl, rfl, rfl, rfl, rfl, rfl, rfl, rfl⟩

/-! ## C2: minigame_bonus has no wiring into the minigame duration -/

/-- A state with ten skill points and the whole prerequisite chain of
minigame_bonus already at level 1. -/
def minigameBonusProbeState : GameState :=
  { initialState with
      skillPoints := 10
      skills := [("click_power_boost", 1), ("auto_mine_speed", 1), ("xp_gain", 1)] }

/-- C2: buying minigame_bonus succeeds and raises its level to 1, but the
purchase changes no multiplier field, and the minigame countdown always
starts at the constant minigameInitialTime = 10 - not at 10 + L = 11 as
the skill card promises. -/
theorem minigame_bonus_has_no_effect :
    skillLevel (spendSkillPoint minigameBonusProbeState "minigame_bonus").skills
        "minigame_bonus" = 1 ∧
    (spendSkillPoint minigameBonusProbeState "minigame_bonus").upgrades =
      minigameBonusProbeState.upgrades ∧
    minigameInitialTime = 10 ∧
    minigameInitialTime ≠
      10 + skillLevel (spendSkillPoint minigameBonusProbeState "minigame_bonus").skills
        "minigame_bonus" := by
  have h : spendSkillPoint minigameBonusProbeState "minigame_bonus" =
      { minigameBonusProbeState with
          skillPoints := 8
          skills := [("click_power_boost", 1), ("auto_mine_speed", 1),
                     ("xp_gain", 1), ("minigame_bonus", 1)] } := by
    simp [spendSkillPoint, SKILL_TREE, skillLevel, setSkill, List.find?,
      minigameBonusProbeState, initialState, clickPowerBoostSkill,
      autoMineSpeedSkill, xpGainSkill, rareResourceChanceSkill, minigameBonusSkill]
    all_goals norm_num
  rw [h]
  refine ⟨rfl, rfl, rfl, by decide⟩

/-! ## C1: the engine does not re-check prerequisites -/

/-- A fresh state with ten skill points and every skill at level 0. -/
def c1State : GameState := { initialState with skillPoints := 10 }

/-- C1 counterexample: both prerequisites of xp_gain are at level 0, so
dependenciesMet is false, yet spendSkillPoint is not a no-op: the state
changes and xp_gain reaches level 1. -/
theorem spendSkillPoint_accepts_unmet_dependencies :
    dependenciesMet c1State xpGainSkill = false ∧
    spendSkillPoint c1State "xp_gain" ≠ c1State ∧
    skillLevel (spendSkillPoint c1State "xp_gain").skills "xp_gain" = 1 := by
  have h : spendSkillPoint c1State "xp_gain" =
      { c1State with
          skillPoints := 9
          skills := [("xp_gain", 1)]
          upgrades := { c1State.upgrades with xpGainMultiplier := 11 / 10 } } := by
    simp [spendSkillPoint, SKILL_TREE, skillLevel, setSkill, List.find?, c1State,
      initialState, clickPowerBoostSkill, autoMineSpeedSkill, xpGainSkill,
      rareResourceChanceSkill, minigameBonusSkill]
    all_goals norm_num
  refine ⟨rfl, ?_, ?_⟩
  · rw [h]
    intro hc
    have h2 := congrArg GameState.skillPoints hc
    norm_num [c1State, initialState] at h2
  · rw [h]
    rfl

/-- C1 amended: spendSkillPoint validates that the skill exists, that
skill points are positive, that the level is below maxLevel, and that
skill points cover the cost - but never the prerequisites; under those
four conditions the purchase is accepted (level increments and the cost is
deducted) whatever the dependency levels are. -/
theorem spendSkillPoint_no_dependency_check (s : GameState) (id : String) (sk : Skill)
    (hfind : SKILL_TREE.find? (fun k => k.id == id) = some sk)
    (hsp : 0 < s.skillPoints)
    (hlev : skillLevel s.skills id < sk.maxLevel)
    (hcost : sk.getCost (skillLevel s.skills id) ≤ s.skillPoints) :
    skillLevel (spendSkillPoint s id).skills id = skillLevel s.skills id + 1 ∧
    (spendSkillPoint s id).skillPoints =
      s.skillPoints - sk.getCost (skillLevel s.skills id) := by
  simp only [spendSkillPoint, hfind]
  rw [if_neg (not_le.mpr hsp), if_neg (not_le.mpr hlev), if_neg (not_lt.mpr hcost)]
  exact ⟨skillLevel_setSkill s.skills id (skillLevel s.skills id + 1), rfl⟩

theorem spendSkillPoint_no_dependency_check_witness :
    (0 : ℚ) < c1State.skillPoints ∧
    (skillLevel (spendSkillPoint c1State "xp_gain").skills "xp_gain" =
        skillLevel c1State.skills "xp_gain" + 1 ∧
      (spendSkillPoint c1State "xp_gain").skillPoints =
        c1State.skillPoints - xpGainSkill.getCost (skillLevel c1State.skills "xp_gain")) :=
  ⟨by decide,
    spendSkillPoint_no_dependency_check c1State "xp_gain" xpGainSkill rfl
      (by decide) (by decide) (by norm_num [c1State, initialState, xpGainSkill, skillLevel])⟩

/-! ## C7: minigame trigger is edge-triggered on depth -/

/-- C7: checking depth 9.9 against recorded floor 0 records 9 and does not
fire; checking 10.0 against 9 fires once and records 10; checking 10.05
against 10 does not fire again.  With a non-negative recorded floor, a
firing implies the new floor strictly exceeds the recorded one, is
divisible by 10 and positive; and right after a firing, any depth sharing
the same floor cannot fire again. -/
theorem minigame_trigger_edge (d dNext : ℚ) (last : ℤ) (hlast : 0 ≤ last) :
    checkMinigameTrigger (99 / 10) 0 = (false, 9) ∧
    checkMinigameTrigger 10 9 = (true, 10) ∧
    checkMinigameTrigger (201 / 20) 10 = (false, 10) ∧
    ((checkMinigameTrigger d last).1 = true →
      last < ⌊d⌋ ∧ ⌊d⌋ % 10 = 0 ∧ 0 < ⌊d⌋) ∧
    ((checkMinigameTrigger d last).1 = true → ⌊dNext⌋ = ⌊d⌋ →
      (checkMinigameTrigger dNext (checkMinigameTrigger d last).2).1 = false) := by
  refine ⟨?_, ?_, ?_, ?_, ?_⟩
  · have h9 : ⌊(99 / 10 : ℚ)⌋ = 9 := by norm_num
    unfold checkMinigameTrigger
    rw [h9]
    norm_num
  · have h10 : ⌊(10 : ℚ)⌋ = 10 := by norm_num
    unfold checkMinigameTrigger
    rw [h10]
    norm_num
  · have h10 : ⌊(201 / 20 : ℚ)⌋ = 10 := by norm_num
    unfold checkMinigameTrigger
    rw [h10]
    norm_num
  · intro h
    by_cases hc : last < ⌊d⌋
    · unfold checkMinigameTrigger at h
      rw [if_pos hc] at h
      simp only [decide_eq_true_eq] at h
      exact ⟨hc, h.1, lt_of_le_of_lt hlast hc⟩
    · unfold checkMinigameTrigger at h
      rw [if_neg hc] at h
      simp at h
  · intro h hfl
    by_cases hc : last < ⌊d⌋
    · have h2 : (checkMinigameTrigger d last).2 = ⌊d⌋ := by
        unfold checkMinigameTrigger
        rw [if_pos hc]
      rw [h2]
      unfold checkMinigameTrigger
      rw [if_neg (by rw [hfl]; exact lt_irrefl _)]
    · unfold checkMinigameTrigger at h
      rw [if_neg hc] at h
      simp at h

theorem minigame_trigger_edge_witness :
    (0 : ℤ) ≤ 9 ∧
    (checkMinigameTrigger (99 / 10) 0 = (false, 9) ∧
     checkMinigameTrigger 10 9 = (true, 10) ∧
     checkMinigameTrigger (201 / 20) 10 = (false, 10) ∧
     ((checkMinigameTrigger 10 9).1 = true →
       (9 : ℤ) < ⌊(10 : ℚ)⌋ ∧ ⌊(10 : ℚ)⌋ % 10 = 0 ∧ 0 < ⌊(10 : ℚ)⌋) ∧
     ((checkMinigameTrigger 10 9).1 = true → ⌊(201 / 20 : ℚ)⌋ = ⌊(10 : ℚ)⌋ →
       (checkMinigameTrigger (201 / 20) (checkMinigameTrigger 10 9).2).1 = false)) :=
  ⟨by norm_num, minigame_trigger_edge 10 (201 / 20) 9 (by norm_num)⟩

/-! ## C3: the level-up loop in gainXp -/

/-- C3: from a state with xp 0, multiplier 1 and an integer threshold n of
at least 1, granting exactly the threshold yields exactly one level-up:
level + 1, skill points + 1, new threshold Math.floor (old * 1.5), xp back
to 0; and granting 2.5 times the threshold in one call yields at least two
level-ups. -/
theorem gainXp_levelups (s : GameState) (n fuel : ℕ)
    (hxp : s.xp = 0) (hmul : s.upgrades.xpGainMultiplier = 1)
    (htn : s.xpToNextLevel = (n : ℚ)) (hn : 1 ≤ n) (hf : 2 ≤ fuel) :
    (gainXp fuel s s.xpToNextLevel).level = s.level + 1 ∧
    (gainXp fuel s s.xpToNextLevel).skillPoints = s.skillPoints + 1 ∧
    (gainXp fuel s s.xpToNextLevel).xpToNextLevel =
      ((⌊s.xpToNextLevel * (3 / 2)⌋ : ℤ) : ℚ) ∧
    (gainXp fuel s s.xpToNextLevel).xp = 0 ∧
    s.level + 2 ≤ (gainXp fuel s (5 / 2 * s.xpToNextLevel)).level := by
  obtain ⟨k, hk⟩ := Nat.exists_eq_add_of_le hf
  subst hk
  have hn1 : (1 : ℚ) ≤ (n : ℚ) := by exact_mod_cast hn
  have hfl1 : (1 : ℤ) ≤ ⌊(n : ℚ) * (3 / 2)⌋ := by
    rw [Int.le_floor]
    push_cast
    linarith
  have hflq : (1 : ℚ) ≤ ((⌊(n : ℚ) * (3 / 2)⌋ : ℤ) : ℚ) := by exact_mod_cast hfl1
  have hrun1 : levelLoop (2 + k)
      ⟨s.xp + s.xpToNextLevel * s.upgrades.xpGainMultiplier, s.level,
        s.xpToNextLevel, s.skillPoints⟩ =
      ⟨0, s.level + 1, ((⌊(n : ℚ) * (3 / 2)⌋ : ℤ) : ℚ), s.skillPoints + 1⟩ := by
    rw [hxp, hmul, htn, Nat.add_comm 2 k]
    have e1 : (0 : ℚ) + (n : ℚ) * 1 = (n : ℚ) := by ring
    rw [e1]
    simp only [levelLoop]
    rw [if_pos (le_refl (n : ℚ))]
    have hneg : ¬ (((⌊(n : ℚ) * (3 / 2)⌋ : ℤ) : ℚ) ≤ (n : ℚ) - (n : ℚ)) := by
      rw [sub_self]
      linarith
    rw [if_neg hneg, sub_self]
  have hrun2 : s.level + 2 ≤ (levelLoop (2 + k)
      ⟨s.xp + 5 / 2 * s.xpToNextLevel * s.upgrades.xpGainMultiplier, s.level,
        s.xpToNextLevel, s.skillPoints⟩).level := by
    rw [hxp, hmul, htn, Nat.add_comm 2 k]
    simp only [levelLoop]
    have hcond1 : (n : ℚ) ≤ 0 + 5 / 2 * (n : ℚ) * 1 := by linarith
    rw [if_pos hcond1]
    have hcond2 : ((⌊(n : ℚ) * (3 / 2)⌋ : ℤ) : ℚ) ≤ 0 + 5 / 2 * (n : ℚ) * 1 - (n : ℚ) := by
      have hfle := Int.floor_le ((n : ℚ) * (3 / 2))
      linarith
    rw [if_pos hcond2]
    have hmono := levelLoop_level_le k
      ⟨0 + 5 / 2 * (n : ℚ) * 1 - (n : ℚ) - ((⌊(n : ℚ) * (3 / 2)⌋ : ℤ) : ℚ),
        s.level + 1 + 1,
        ((⌊((⌊(n : ℚ) * (3 / 2)⌋ : ℤ) : ℚ) * (3 / 2)⌋ : ℤ) : ℚ),
        s.skillPoints + 1 + 1⟩
    exact hmono
  refine ⟨?_, ?_, ?_, ?_, ?_⟩
  · simp only [gainXp]
    rw [hrun1]
  · simp only [gainXp]
    rw [hrun1]
  · simp only [gainXp]
    rw [hrun1, htn]
  · simp only [gainXp]
    rw [hrun1]
  · simp only [gainXp]
    exact hrun2

theorem gainXp_levelups_witness :
    (initialState.xp = 0 ∧ initialState.upgrades.xpGainMultiplier = 1 ∧
     initialState.xpToNextLevel = ((100 : ℕ) : ℚ) ∧ 1 ≤ 100 ∧ 2 ≤ 2) ∧
    ((gainXp 2 initialState initialState.xpToNextLevel).level = initialState.level + 1 ∧
     (gainXp 2 initialState initialState.xpToNextLevel).skillPoints =
       initialState.skillPoints + 1 ∧
     (gainXp 2 initialState initialState.xpToNextLevel).xpToNextLevel =
       ((⌊initialState.xpToNextLevel * (3 / 2)⌋ : ℤ) : ℚ) ∧
     (gainXp 2 initialState initialState.xpToNextLevel).xp = 0 ∧
     initialState.level + 2 ≤
       (gainXp 2 initialState (5 / 2 * initialState.xpToNextLevel)).level) :=
  ⟨⟨rfl, rfl, by norm_num [initialState], by norm_num, by norm_num⟩,
   gainXp_levelups initialState 100 2 rfl rfl (by norm_num [initialState])
     (by norm_num) (by norm_num)⟩

/-! ## C8: first manual mine from the initial state -/

/-- C8: from the initial state (clickPower 1, clickMultiplier 1, rare-find
chance 0), one mineResource call with any non-negative random draw adds 1
coal, sets totalMined to 1, sets depth to 0.1, raises xp by 1 and causes
no level-up. -/
theorem mineResource_initial (fuel : ℕ) (r : ℚ) (hr : 0 ≤ r) :
    (mineResource fuel r initialState).coal = 1 ∧
    (mineResource fuel r initialState).totalMined = 1 ∧
    (mineResource fuel r initialState).depth = 1 / 10 ∧
    (mineResource fuel r initialState).xp = 1 ∧
    (mineResource fuel r initialState).level = 1 := by
  have hres : getCurrentResource initialState.depth = coalRes := by
    norm_num [getCurrentResource, RESOURCES, List.filter, List.getLast?,
      initialState, coalRes, ironRes, goldRes, diamondRes]
  have hcond : ¬ (r < initialState.upgrades.rareResourceChance / 100) := by
    have h0 : initialState.upgrades.rareResourceChance / 100 = 0 := by
      norm_num [initialState]
    rw [h0]
    exact not_lt.mpr hr
  have hpow : initialState.clickPower * initialState.upgrades.clickMultiplier = 1 := by
    norm_num [initialState]
  have hloop := levelLoop_of_lt fuel
    ⟨initialState.xp + 1 * initialState.upgrades.xpGainMultiplier,
      initialState.level, initialState.xpToNextLevel, initialState.skillPoints⟩
    (by norm_num [initialState])
  simp only [mineResource, hres]
  rw [if_neg hcond, hpow]
  simp only [gainXp, hloop, addResource, coalRes]
  norm_num [initialState]

/-! ## C9: skill purchases set multiplier fields absolutely from the level -/

/-- C9: after a successful spendSkillPoint raising the skill to level
L = old level + 1, the affected multiplier field equals the absolute table
value at L: clickMultiplier 1 + L/20 for click_power_boost, autoMultiplier
1 + L/20 for auto_mine_speed, xpGainMultiplier 1 + L/10 for xp_gain, and
rareResourceChance L for rare_resource_chance. -/
theorem spendSkillPoint_multiplier_table (s : GameState) (id : String) (sk : Skill)
    (hfind : SKILL_TREE.find? (fun k => k.id == id) = some sk)
    (hsp : 0 < s.skillPoints)
    (hlev : skillLevel s.skills id < sk.maxLevel)
    (hcost : sk.getCost (skillLevel s.skills id) ≤ s.skillPoints) :
    (id = "click_power_boost" →
      (spendSkillPoint s id).upgrades.clickMultiplier =
        1 + ((skillLevel s.skills id + 1 : ℕ) : ℚ) * (1 / 20)) ∧
    (id = "auto_mine_speed" →
      (spendSkillPoint s id).upgrades.autoMultiplier =
        1 + ((skillLevel s.skills id + 1 : ℕ) : ℚ) * (1 / 20)) ∧
    (id = "xp_gain" →
      (spendSkillPoint s id).upgrades.xpGainMultiplier =
        1 + ((skillLevel s.skills id + 1 : ℕ) : ℚ) * (1 / 10)) ∧
    (id = "rare_resource_chance" →
      (spendSkillPoint s id).upgrades.rareResourceChance =
        ((skillLevel s.skills id + 1 : ℕ) : ℚ)) := by
  simp only [spendSkillPoint, hfind]
  rw [if_neg (not_le.mpr hsp), if_neg (not_le.mpr hlev), if_neg (not_lt.mpr hcost)]
  refine ⟨?_, ?_, ?_, ?_⟩ <;> intro hid <;> subst hid <;>
    simp [skillLevel_setSkill]

/-- Concrete state for exercising the multiplier table: five skill
points, no skills bought yet. -/
def tableProbeState : GameState := { initialState with skillPoints := 5 }

theorem spendSkillPoint_multiplier_table_witness :
    (SKILL_TREE.find? (fun k => k.id == "click_power_boost") =
        some clickPowerBoostSkill ∧
      (0 : ℚ) < tableProbeState.skillPoints ∧
      skillLevel tableProbeState.skills "click_power_boost" <
        clickPowerBoostSkill.maxLevel ∧
      clickPowerBoostSkill.getCost
          (skillLevel tableProbeState.skills "click_power_boost") ≤
        tableProbeState.skillPoints) ∧
    (("click_power_boost" = "click_power_boost" →
      (spendSkillPoint tableProbeState "click_power_boost").upgrades.clickMultiplier =
        1 + ((skillLevel tableProbeState.skills "click_power_boost" + 1 : ℕ) : ℚ) *
          (1 / 20)) ∧
     ("click_power_boost" = "auto_mine_speed" →
      (spendSkillPoint tableProbeState "click_power_boost").upgrades.autoMultiplier =
        1 + ((skillLevel tableProbeState.skills "click_power_boost" + 1 : ℕ) : ℚ) *
          (1 / 20)) ∧
     ("click_power_boost" = "xp_gain" →
      (spendSkillPoint tableProbeState "click_power_boost").upgrades.xpGainMultiplier =
        1 + ((skillLevel tableProbeState.skills "click_power_boost" + 1 : ℕ) : ℚ) *
          (1 / 10)) ∧
     ("click_power_boost" = "rare_resource_chance" →
      (spendSkillPoint tableProbeState "click_power_boost").upgrades.rareResourceChance =
        ((skillLevel tableProbeState.skills "click_power_boost" + 1 : ℕ) : ℚ))) :=
  ⟨⟨rfl, by norm_num [tableProbeState, initialState], by decide,
      by norm_num [clickPowerBoostSkill, tableProbeState, initialState, skillLevel]⟩,
   spendSkillPoint_multiplier_table tableProbeState "click_power_boost"
     clickPowerBoostSkill rfl (by norm_num [tableProbeState, initialState])
     (by decide)
     (by norm_num [clickPowerBoostSkill, tableProbeState, initialState, skillLevel])⟩

/-! ## C5: getCurrentResource picks the deepest unlocked kind -/

/-- Closed form of getCurrentResource over the four-entry catalog. -/
theorem getCurrentResource_eval (d : ℚ) (h0 : 0 ≤ d) :
    getCurrentResource d =
      if 50 ≤ d then diamondRes
      else if 25 ≤ d then goldRes
      else if 10 ≤ d then ironRes
      else coalRes := by
  unfold getCurrentResource RESOURCES
  by_cases h50 : 50 ≤ d
  · have h25 : (25 : ℚ) ≤ d := by linarith
    have h10 : (10 : ℚ) ≤ d := by linarith
    simp [List.filter, List.getLast?, coalRes, ironRes, goldRes, diamondRes,
      h0, h10, h25, h50]
  · by_cases h25 : 25 ≤ d
    · have h10 : (10 : ℚ) ≤ d := by linarith
      simp [List.filter, List.getLast?, coalRes, ironRes, goldRes, diamondRes,
        h0, h10, h25, h50]
    · by_cases h10 : 10 ≤ d
      · simp [List.filter, List.getLast?, coalRes, ironRes, goldRes, diamondRes,
          h0, h10, h25, h50]
      · simp [List.filter, List.getLast?, coalRes, ironRes, goldRes, diamondRes,
          h0, h10, h25, h50]

/-- C5: for every non-negative depth d, getCurrentResource d is a catalog
entry whose unlockDepth is at most d, it has the largest such unlockDepth,
it is the unique maximiser, and at depth 0 it is coal. -/
theorem getCurrentResource_spec (d : ℚ) (h : 0 ≤ d) :
    getCurrentResource d ∈ RESOURCES ∧
    (getCurrentResource d).unlockDepth ≤ d ∧
    (∀ r ∈ RESOURCES, r.unlockDepth ≤ d →
      r.unlockDepth ≤ (getCurrentResource d).unlockDepth) ∧
    (∀ r ∈ RESOURCES, r.unlockDepth ≤ d →
      (∀ r2 ∈ RESOURCES, r2.unlockDepth ≤ d → r2.unlockDepth ≤ r.unlockDepth) →
      r = getCurrentResource d) ∧
    getCurrentResource 0 = coalRes := by
  have he0 : getCurrentResource 0 = coalRes := by
    rw [getCurrentResource_eval 0 le_rfl]
    norm_num
  rw [getCurrentResource_eval d h]
  rcases le_or_lt 50 d with h50 | h50
  · rw [if_pos h50]
    refine ⟨by simp [RESOURCES], by norm_num [diamondRes]; linarith, ?_, ?_, he0⟩
    · intro r hr hrd
      simp only [RESOURCES] at hr
      fin_cases hr <;> norm_num [coalRes, ironRes, goldRes, diamondRes]
    · intro r hr hrd hmax
      have hd := hmax diamondRes (by simp [RESOURCES])
        (by norm_num [diamondRes]; linarith)
      simp only [RESOURCES] at hr
      fin_cases hr
      · norm_num [coalRes, diamondRes] at hd
      · norm_num [ironRes, diamondRes] at hd
      · norm_num [goldRes, diamondRes] at hd
      · rfl
  · rw [if_neg (not_le.mpr h50)]
    rcases le_or_lt 25 d with h25 | h25
    · rw [if_pos h25]
      refine ⟨by simp [RESOURCES], by norm_num [goldRes]; linarith, ?_, ?_, he0⟩
      · intro r hr hrd
        simp only [RESOURCES] at hr
        fin_cases hr <;> norm_num [coalRes, ironRes, goldRes, diamondRes] at hrd ⊢ <;>
          linarith
      · intro r hr hrd hmax
        have hd := hmax goldRes (by simp [RESOURCES])
          (by norm_num [goldRes]; linarith)
        simp only [RESOURCES] at hr
        fin_cases hr
        · norm_num [coalRes, goldRes] at hd
        · norm_num [ironRes, goldRes] at hd
        · rfl
        · norm_num [diamondRes] at hrd
          linarith
    · rw [if_neg (not_le.mpr h25)]
      rcases le_or_lt 10 d with h10 | h10
      · rw [if_pos h10]
        refine ⟨by simp [RESOURCES], by norm_num [ironRes]; linarith, ?_, ?_, he0⟩
        · intro r hr hrd
          simp only [RESOURCES] at hr
          fin_cases hr <;> norm_num [coalRes, ironRes, goldRes, diamondRes] at hrd ⊢ <;>
            linarith
        · intro r hr hrd hmax
          have hd := hmax ironRes (by simp [RESOURCES])
            (by norm_num [ironRes]; linarith)
          simp only [RESOURCES] at hr
          fin_cases hr
          · norm_num [coalRes, ironRes] at hd
          · rfl
          · norm_num [goldRes] at hrd
            linarith
          · norm_num [diamondRes] at hrd
            linarith
      · rw [if_neg (not_le.mpr h10)]
        refine ⟨by simp [RESOURCES], by norm_num [coalRes]; linarith, ?_, ?_, he0⟩
        · intro r hr hrd
          simp only [RESOURCES] at hr
          fin_cases hr <;> norm_num [coalRes, ironRes, goldRes, diamondRes] at hrd ⊢ <;>
            linarith
        · intro r hr hrd hmax
          simp only [RESOURCES] at hr
          fin_cases hr
          · rfl
          · norm_num [ironRes] at hrd
            linarith
          · norm_num [goldRes] at hrd
            linarith
          · norm_num [diamondRes] at hrd
            linarith

theorem getCurrentResource_spec_witness :
    (0 : ℚ) ≤ 30 ∧
    (getCurrentResource 30 ∈ RESOURCES ∧
     (getCurrentResource 30).unlockDepth ≤ 30 ∧
     (∀ r ∈ RESOURCES, r.unlockDepth ≤ 30 →
       r.unlockDepth ≤ (getCurrentResource 30).unlockDepth) ∧
     (∀ r ∈ RESOURCES, r.unlockDepth ≤ 30 →
       (∀ r2 ∈ RESOURCES, r2.unlockDepth ≤ 30 → r2.unlockDepth ≤ r.unlockDepth) →
       r = getCurrentResource 30) ∧
     getCurrentResource 0 = coalRes) :=
  ⟨by norm_num, getCurrentResource_spec 30 (by norm_num)⟩

/-! ## C4: equipment cost scaling and affordability gate -/

/-- Incrementing the owned count of the found equipment through the map in
buyEquipment is visible to a subsequent lookup. -/
theorem find?_map_owned (l : List Equipment) (id : String) (e0 : Equipment)
    (h : l.find? (fun e => e.id == id) = some e0) :
    (l.map (fun e =>
        if e.id == id then { e with owned := e.owned + 1 } else e)).find?
      (fun e => e.id == id) = some { e0 with owned := e0.owned + 1 } := by
  induction l with
  | nil => simp at h
  | cons a l ih =>
    by_cases ha : (a.id == id) = true
    · rw [@List.find?_cons_of_pos Equipment (fun e => e.id == id) a l ha] at h
      obtain rfl : a = e0 := Option.some.inj h
      rw [List.map_cons, if_pos ha]
      simp [List.find?, ha]
    · rw [@List.find?_cons_of_neg Equipment (fun e => e.id == id) a l ha] at h
      rw [List.map_cons, if_neg ha]
      simp only [List.find?]
      simp only [show (a.id == id) = false from by simpa using ha]
      exact ih h

/-- C4: for a state holding the equipment e0 under the looked-up id with
positive base cost, buyEquipment is a no-op exactly when money is below
cost = base * 1.5 ^ owned; when affordable it charges exactly that cost
and increments the owned count; and the cost sequence base * 1.5 ^ k for
the k-th purchase is strictly increasing. -/
theorem buyEquipment_cost_spec (s : GameState) (id : String) (e0 : Equipment)
    (hfind : s.equipment.find? (fun e => e.id == id) = some e0)
    (hc : 0 < e0.cost) :
    (buyEquipment s id = s ↔ s.money < e0.cost * (3 / 2 : ℚ) ^ e0.owned) ∧
    (e0.cost * (3 / 2 : ℚ) ^ e0.owned ≤ s.money →
      (buyEquipment s id).money = s.money - e0.cost * (3 / 2 : ℚ) ^ e0.owned ∧
      (buyEquipment s id).equipment.find? (fun e => e.id == id) =
        some { e0 with owned := e0.owned + 1 }) ∧
    StrictMono (fun k : ℕ => e0.cost * (3 / 2 : ℚ) ^ k) := by
  have hcpos : 0 < e0.cost * (3 / 2 : ℚ) ^ e0.owned :=
    mul_pos hc (pow_pos (by norm_num) _)
  refine ⟨⟨?_, ?_⟩, ?_, ?_⟩
  · intro heq
    by_contra hlt
    have hm : (buyEquipment s id).money = s.money - e0.cost * (3 / 2 : ℚ) ^ e0.owned := by
      simp only [buyEquipment, hfind]
      rw [if_neg hlt]
    rw [heq] at hm
    have : e0.cost * (3 / 2 : ℚ) ^ e0.owned = 0 := by linarith
    linarith
  · intro hlt
    simp only [buyEquipment, hfind]
    rw [if_pos hlt]
  · intro hge
    have hnlt : ¬ (s.money < e0.cost * (3 / 2 : ℚ) ^ e0.owned) := not_lt.mpr hge
    constructor
    · simp only [buyEquipment, hfind]
      rw [if_neg hnlt]
    · simp only [buyEquipment, hfind]
      rw [if_neg hnlt]
      exact find?_map_owned s.equipment id e0 hfind
  · apply strictMono_nat_of_lt_succ
    intro k
    have hp : (0 : ℚ) < (3 / 2 : ℚ) ^ k := pow_pos (by norm_num) k
    rw [pow_succ]
    nlinarith [mul_pos hc hp]

/-- The spec scenario state: exactly enough money for the first pickaxe. -/
def buyProbeState : GameState := { initialState with money := 50 }

theorem buyEquipment_cost_spec_witness :
    (buyProbeState.equipment.find? (fun e => e.id == "basic_pickaxe") =
        some ⟨"basic_pickaxe", EquipType.pickaxe, 1, 50, 0⟩ ∧
      (0 : ℚ) < (⟨"basic_pickaxe", EquipType.pickaxe, 1, 50, 0⟩ : Equipment).cost) ∧
    ((buyEquipment buyProbeState "basic_pickaxe" = buyProbeState ↔
        buyProbeState.money <
          (⟨"basic_pickaxe", EquipType.pickaxe, 1, 50, 0⟩ : Equipment).cost *
            (3 / 2 : ℚ) ^ (⟨"basic_pickaxe", EquipType.pickaxe, 1, 50, 0⟩ : Equipment).owned) ∧
     ((⟨"basic_pickaxe", EquipType.pickaxe, 1, 50, 0⟩ : Equipment).cost *
          (3 / 2 : ℚ) ^ (⟨"basic_pickaxe", EquipType.pickaxe, 1, 50, 0⟩ : Equipment).owned ≤
        buyProbeState.money →
      (buyEquipment buyProbeState "basic_pickaxe").money =
        buyProbeState.money -
          (⟨"basic_pickaxe", EquipType.pickaxe, 1, 50, 0⟩ : Equipment).cost *
            (3 / 2 : ℚ) ^ (⟨"basic_pickaxe", EquipType.pickaxe, 1, 50, 0⟩ : Equipment).owned ∧
      (buyEquipment buyProbeState "basic_pickaxe").equipment.find?
          (fun e => e.id == "basic_pickaxe") =
        some ⟨"basic_pickaxe", EquipType.pickaxe, 1, 50, 1⟩) ∧
     StrictMono (fun k : ℕ =>
       (⟨"basic_pickaxe", EquipType.pickaxe, 1, 50, 0⟩ : Equipment).cost *
         (3 / 2 : ℚ) ^ k)) :=
  ⟨⟨rfl, by norm_num⟩,
   buyEquipment_cost_spec buyProbeState "basic_pickaxe"
     ⟨"basic_pickaxe", EquipType.pickaxe, 1, 50, 0⟩ rfl (by norm_num)⟩

/-! ## C10: sellResource accepts negative amounts -/

/-- A successful catalog lookup pins down both the id and the entry. -/
theorem resources_find (rid : String) (res : Resource)
    (h : RESOURCES.find? (fun r => r.id == rid) = some res) :
    (rid = "coal" ∧ res = coalRes) ∨ (rid = "iron" ∧ res = ironRes) ∨
    (rid = "gold" ∧ res = goldRes) ∨ (rid = "diamond" ∧ res = diamondRes) := by
  simp only [RESOURCES] at h
  by_cases h1 : (coalRes.id == rid) = true
  · rw [@List.find?_cons_of_pos Resource (fun r => r.id == rid) coalRes _ h1] at h
    exact Or.inl ⟨(beq_iff_eq.mp h1).symm, (Option.some.inj h).symm⟩
  · rw [@List.find?_cons_of_neg Resource (fun r => r.id == rid) coalRes _ h1] at h
    by_cases h2 : (ironRes.id == rid) = true
    · rw [@List.find?_cons_of_pos Resource (fun r => r.id == rid) ironRes _ h2] at h
      exact Or.inr (Or.inl ⟨(beq_iff_eq.mp h2).symm, (Option.some.inj h).symm⟩)
    · rw [@List.find?_cons_of_neg Resource (fun r => r.id == rid) ironRes _ h2] at h
      by_cases h3 : (goldRes.id == rid) = true
      · rw [@List.find?_cons_of_pos Resource (fun r => r.id == rid) goldRes _ h3] at h
        exact Or.inr (Or.inr (Or.inl ⟨(beq_iff_eq.mp h3).symm, (Option.some.inj h).symm⟩))
      · rw [@List.find?_cons_of_neg Resource (fun r => r.id == rid) goldRes _ h3] at h
        by_cases h4 : (diamondRes.id == rid) = true
        · rw [@List.find?_cons_of_pos Resource (fun r => r.id == rid) diamondRes _ h4] at h
          exact Or.inr (Or.inr (Or.inr ⟨(beq_iff_eq.mp h4).symm, (Option.some.inj h).symm⟩))
        · rw [@List.find?_cons_of_neg Resource (fun r => r.id == rid) diamondRes _ h4] at h
          simp at h

/-- Every catalog entry has a positive unit value. -/
theorem resources_value_pos (rid : String) (res : Resource)
    (h : RESOURCES.find? (fun r => r.id == rid) = some res) : 0 < res.value := by
  rcases resources_find rid res h with ⟨_, rfl⟩ | ⟨_, rfl⟩ | ⟨_, rfl⟩ | ⟨_, rfl⟩ <;>
    norm_num [coalRes, ironRes, goldRes, diamondRes]


/-- addResource leaves money untouched. -/
theorem addResource_money (s : GameState) (rid : String) (amt : ℚ) :
    (addResource s rid amt).money = s.money := by
  unfold addResource
  split_ifs <;> rfl

/-- addResource leaves xp untouched. -/
theorem addResource_xp (s : GameState) (rid : String) (amt : ℚ) :
    (addResource s rid amt).xp = s.xp := by
  unfold addResource
  split_ifs <;> rfl

/-- For a catalog id, reading back after addResource sees the summand. -/
theorem getResource_addResource (s : GameState) (rid : String) (amt : ℚ)
    (hvalid : rid = "coal" ∨ rid = "iron" ∨ rid = "gold" ∨ rid = "diamond") :
    getResource (addResource s rid amt) rid = getResource s rid + amt := by
  rcases hvalid with rfl | rfl | rfl | rfl <;> simp [getResource, addResource]

/-- Overwriting money does not change any resource quantity. -/
theorem getResource_set_money (s : GameState) (m : ℚ) (rid : String) :
    getResource { s with money := m } rid = getResource s rid := by
  unfold getResource
  split_ifs <;> rfl

/-- gainXp does not change any resource quantity. -/
theorem getResource_gainXp (fuel : ℕ) (s : GameState) (amt : ℚ) (rid : String) :
    getResource (gainXp fuel s amt) rid = getResource s rid := by
  simp only [gainXp, getResource]

/-- C10: for a valid resource id, a non-negative held quantity and a
negative amount, sellResource is not rejected: the quantity-sufficiency
guard is false, so the state changes; the quantity grows by the absolute
amount, money is debited by the (negative) proceeds - possibly below
zero - and the granted experience is negative, so xp strictly drops. -/
theorem sellResource_negative_accepted (s : GameState) (rid : String)
    (res : Resource) (amount : ℚ) (fuel : ℕ)
    (hfind : RESOURCES.find? (fun r => r.id == rid) = some res)
    (hq : 0 ≤ getResource s rid) (hneg : amount < 0)
    (hsell : 0 < s.upgrades.sellPriceMultiplier)
    (hxpm : 0 < s.upgrades.xpGainMultiplier)
    (hinv : s.xp < s.xpToNextLevel) :
    sellResource fuel s rid amount ≠ s ∧
    getResource (sellResource fuel s rid amount) rid = getResource s rid - amount ∧
    (sellResource fuel s rid amount).money =
      s.money + amount * res.value * s.upgrades.sellPriceMultiplier ∧
    (sellResource fuel s rid amount).money < s.money ∧
    (sellResource fuel s rid amount).xp < s.xp := by
  have hval := resources_value_pos rid res hfind
  have hvalid : rid = "coal" ∨ rid = "iron" ∨ rid = "gold" ∨ rid = "diamond" := by
    rcases resources_find rid res hfind with ⟨h1, _⟩ | ⟨h1, _⟩ | ⟨h1, _⟩ | ⟨h1, _⟩ <;> tauto
  have hmg : amount * res.value * s.upgrades.sellPriceMultiplier < 0 := by
    have hvp := mul_pos hval hsell
    nlinarith
  have hxg : amount * res.value * s.upgrades.sellPriceMultiplier / 10 *
      s.upgrades.xpGainMultiplier < 0 := by
    apply mul_neg_of_neg_of_pos _ hxpm
    linarith
  have hnlt : ¬ (getResource s rid < amount) :=
    not_lt.mpr (le_of_lt (lt_of_lt_of_le hneg hq))
  have hxlt : s.xp + amount * res.value * s.upgrades.sellPriceMultiplier / 10 *
      s.upgrades.xpGainMultiplier < s.xpToNextLevel := by linarith
  have hloop := levelLoop_of_lt fuel
    ⟨s.xp + amount * res.value * s.upgrades.sellPriceMultiplier / 10 *
        s.upgrades.xpGainMultiplier, s.level, s.xpToNextLevel, s.skillPoints⟩
    hxlt
  have hunfold : sellResource fuel s rid amount =
      { addResource (gainXp fuel s (amount * res.value * s.upgrades.sellPriceMultiplier / 10))
          rid (-amount) with
        money := (addResource (gainXp fuel s
            (amount * res.value * s.upgrades.sellPriceMultiplier / 10)) rid (-amount)).money +
          amount * res.value * s.upgrades.sellPriceMultiplier } := by
    simp only [sellResource, hfind]
    rw [if_neg hnlt]
  have hmoneyEq : (sellResource fuel s rid amount).money =
      s.money + amount * res.value * s.upgrades.sellPriceMultiplier := by
    rw [hunfold]
    show (addResource (gainXp fuel s
        (amount * res.value * s.upgrades.sellPriceMultiplier / 10)) rid (-amount)).money +
      amount * res.value * s.upgrades.sellPriceMultiplier = _
    rw [addResource_money]
    rfl
  have hxpEq : (sellResource fuel s rid amount).xp =
      s.xp + amount * res.value * s.upgrades.sellPriceMultiplier / 10 *
        s.upgrades.xpGainMultiplier := by
    rw [hunfold]
    show (addResource (gainXp fuel s
        (amount * res.value * s.upgrades.sellPriceMultiplier / 10)) rid (-amount)).xp = _
    rw [addResource_xp]
    simp only [gainXp]
    rw [hloop]
  have hresEq : getResource (sellResource fuel s rid amount) rid =
      getResource s rid - amount := by
    rw [hunfold, getResource_set_money, getResource_addResource _ _ _ hvalid,
      getResource_gainXp]
    ring
  refine ⟨?_, hresEq, hmoneyEq, ?_, ?_⟩
  · intro he
    rw [he] at hmoneyEq
    linarith
  · rw [hmoneyEq]
    linarith
  · rw [hxpEq]
    linarith

/-- State for exercising the negative-amount sale: five coal in stock. -/
def sellProbeState : GameState := { initialState with coal := 5 }

theorem sellResource_negative_accepted_witness :
    (RESOURCES.find? (fun r => r.id == "coal") = some coalRes ∧
      (0 : ℚ) ≤ getResource sellProbeState "coal" ∧ (-2 : ℚ) < 0 ∧
      (0 : ℚ) < sellProbeState.upgrades.sellPriceMultiplier ∧
      (0 : ℚ) < sellProbeState.upgrades.xpGainMultiplier ∧
      sellProbeState.xp < sellProbeState.xpToNextLevel) ∧
    (sellResource 0 sellProbeState "coal" (-2) ≠ sellProbeState ∧
     getResource (sellResource 0 sellProbeState "coal" (-2)) "coal" =
       getResource sellProbeState "coal" - (-2) ∧
     (sellResource 0 sellProbeState "coal" (-2)).money =
       sellProbeState.money +
         (-2) * coalRes.value * sellProbeState.upgrades.sellPriceMultiplier ∧
     (sellResource 0 sellProbeState "coal" (-2)).money < sellProbeState.money ∧
     (sellResource 0 sellProbeState "coal" (-2)).xp < sellProbeState.xp) :=
  ⟨⟨rfl, by norm_num [sellProbeState, initialState, getResource], by norm_num,
      by norm_num [sellProbeState, initialState],
      by norm_num [sellProbeState, initialState],
      by norm_num [sellProbeState, initialState]⟩,
   sellResource_negative_accepted sellProbeState "coal" coalRes (-2) 0 rfl
     (by norm_num [sellProbeState, initialState, getResource]) (by norm_num)
     (by norm_num [sellProbeState, initialState])
     (by norm_num [sellProbeState, initialState])
     (by norm_num [sellProbeState, initialState])⟩

theorem mineResource_initial_witness :
    (0 : ℚ) ≤ 0 ∧
    ((mineResource 0 0 initialState).coal = 1 ∧
     (mineResource 0 0 initialState).totalMined = 1 ∧
     (mineResource 0 0 initialState).depth = 1 / 10 ∧
     (mineResource 0 0 initialState).xp = 1 ∧
     (mineResource 0 0 initialState).level = 1) :=
  ⟨le_refl 0, mineResource_initial 0 0 (le_refl 0)⟩
